import Mathlib

/-!
Verification development for the 99spokes bike crawler (`src/crawler.py`,
class `BikeCrawler`).  The Python code is shallowly embedded: pure string
manipulation becomes Lean functions on `String`/`List Char`, Python floats
that arise from decimal literals become exact rationals, fallible Python
code (statements that can raise) returns `Except PyErr`, and the
`crawl` while-loop becomes a fuel-indexed step machine over an explicit
state record.  External collaborators (the HTTP/browser fetch, the
BeautifulSoup HTML parse tree, and the jsonschema check) are inputs,
packaged in an `Env` record: the controller logic under verification is
exactly the code of `crawler.py`, quantified over every behaviour of
those collaborators.
-/

/-! ### Python values (results of `json.loads` and friends)

`json.loads` distinguishes ints from floats; both are exact decimal
numbers, so floats are modelled as rationals.  `JValue.null` is Python
`None`. -/

inductive JNum where
  | int (i : Int)
  | float (q : ℚ)

inductive JValue where
  | null
  | bool (b : Bool)
  | num (n : JNum)
  | str (s : String)
  | arr (xs : List JValue)
  | obj (fields : List (String × JValue))

/-- Python truthiness (`bool(v)`) for JSON-shaped values: `None`, `False`,
zero, the empty string, the empty list and the empty dict are falsy. -/
def jFalsy : JValue → Bool
  | JValue.null => true
  | JValue.bool b => !b
  | JValue.num (JNum.int i) => i == 0
  | JValue.num (JNum.float q) => q == 0
  | JValue.str s => s == ("")
  | JValue.arr xs => xs.isEmpty
  | JValue.obj fs => fs.isEmpty

/-- `dict.get` on a JSON object.  `json.loads` builds the dict left to
right, so a duplicated key keeps its last occurrence. -/
def jGet (fs : List (String × JValue)) (k : String) : Option JValue :=
  match fs.reverse.find? (fun p => p.1 == k) with
  | some p => some p.2
  | none => none

/-! ### `str()` coercion

`parse_page` applies `str(offers.get('price'))` (crawler.py line 130)
before price normalisation.  We model Python `str`/`repr` on the values
that can come out of `json.loads`.  Float printing is exact for numbers
with a finite decimal expansion, which covers every float produced by a
JSON decimal literal. -/

/-- Multiplicity of `p` in `n` (largest `k` with `p ^ k ∣ n`), computed
with structural fuel so that it evaluates inside the kernel. -/
def multOfAux (p : Nat) : Nat → Nat → Nat
  | 0, _ => 0
  | fuel + 1, n =>
    if 2 ≤ p ∧ 0 < n ∧ n % p = 0 then multOfAux p fuel (n / p) + 1 else 0

def multOf (p n : Nat) : Nat := multOfAux p n n

/-- Python `str` of a float whose value is the rational `q`; exact when
`q` has a finite decimal expansion (e.g. `str(1000.5) = "1000.5"`,
`str(5.0) = "5.0"`). -/
def pyStrFloat (q : ℚ) : String :=
  let d := q.den
  let a := multOf 2 d
  let b := multOf 5 d
  if 2 ^ a * 5 ^ b = d then
    let k := max a b
    let m := q.num.natAbs * (10 ^ k / d)
    let ds0 : List Char := Nat.toDigits 10 m
    let ds := if ds0.length < k + 1 then
        List.replicate (k + 1 - ds0.length) ('0') ++ ds0
      else ds0
    let body := if k = 0 then String.mk ds ++ (".0")
      else String.mk (ds.take (ds.length - k)) ++ (".") ++ String.mk (ds.drop (ds.length - k))
    if q.num < 0 then ("-") ++ body else body
  else toString q.num ++ ("/") ++ toString q.den

def joinSep (sep : String) : List String → String
  | [] => ("")
  | [x] => x
  | x :: xs => x ++ sep ++ joinSep sep xs

/-- Escape for Python single-quoted `repr` of a string (backslash and the
quote character, written via its code point 39). -/
def escSingle (s : String) : String :=
  String.mk (s.data.foldr
    (fun c acc =>
      if c == '\\' then '\\' :: '\\' :: acc
      else if c == Char.ofNat 39 then '\\' :: Char.ofNat 39 :: acc
      else c :: acc) [])

def quoteSingle (s : String) : String :=
  String.singleton (Char.ofNat 39) ++ escSingle s ++ String.singleton (Char.ofNat 39)

mutual

/-- Python `repr` of a JSON-shaped value (used by `str` inside lists and
dicts). -/
def pyRepr : JValue → String
  | JValue.null => ("None")
  | JValue.bool true => ("True")
  | JValue.bool false => ("False")
  | JValue.num (JNum.int i) => toString i
  | JValue.num (JNum.float q) => pyStrFloat q
  | JValue.str s => quoteSingle s
  | JValue.arr xs => ("[") ++ pyReprList xs ++ ("]")
  | JValue.obj fs => ("\x7b") ++ pyReprObj fs ++ ("\x7d")

def pyReprList : List JValue → String
  | [] => ("")
  | [x] => pyRepr x
  | x :: xs => pyRepr x ++ (", ") ++ pyReprList xs

def pyReprObj : List (String × JValue) → String
  | [] => ("")
  | [(k, v)] => quoteSingle k ++ (": ") ++ pyRepr v
  | (k, v) :: fs => quoteSingle k ++ (": ") ++ pyRepr v ++ (", ") ++ pyReprObj fs

end

/-- Python `str` of a JSON-shaped value.  Same as `repr` except that a
top-level string is returned verbatim.  `str(None) = "None"`. -/
def pyStr : JValue → String
  | JValue.null => ("None")
  | JValue.bool true => ("True")
  | JValue.bool false => ("False")
  | JValue.num (JNum.int i) => toString i
  | JValue.num (JNum.float q) => pyStrFloat q
  | JValue.str s => s
  | JValue.arr xs => pyRepr (JValue.arr xs)
  | JValue.obj fs => pyRepr (JValue.obj fs)

/-! ### The Price Normalizer: `BikeCrawler.parse_price` (lines 104-113)

```
def parse_price(self, text):
    if not text: return None
    text = text.replace('.', '').replace(',', '.').strip()
    digits = ''.join(ch for ch in text if ch.isdigit() or ch == '.')
    try: return float(digits)
    except ValueError: return None
```
-/

def isPySpace (c : Char) : Bool :=
  c == (' ') || c == ('\t') || c == ('\n') || c == ('\r') || c == ('\x0b') || c == ('\x0c')

/-- Python `str.strip()` on a character list. -/
def pyStrip (l : List Char) : List Char :=
  ((l.dropWhile isPySpace).reverse.dropWhile isPySpace).reverse

def natOfDigits (l : List Char) : Nat :=
  l.foldl (fun a c => a * 10 + (c.toNat - 48)) 0

/-- Python `float(s)` restricted to the strings that can reach it here
(digits and dots after the filter in `parse_price`): at most one dot and
at least one digit, otherwise `ValueError` (modelled as `none`). -/
def pyFloat (l : List Char) : Option ℚ :=
  let t := pyStrip l
  if t.all (fun c => c.isDigit || c == ('.')) then
    if t.count ('.') = 0 then
      if t.isEmpty then none else some (mkRat (natOfDigits t) 1)
    else if t.count ('.') = 1 then
      let a := t.takeWhile (fun c => !(c == ('.')))
      let b := (t.dropWhile (fun c => !(c == ('.')))).tail
      if a.isEmpty && b.isEmpty then none
      else some (mkRat (natOfDigits a * 10 ^ b.length + natOfDigits b) (10 ^ b.length))
    else none
  else none

/-- `BikeCrawler.parse_price` (crawler.py lines 104-113). -/
def parse_price (s : String) : Option ℚ :=
  if s = ("") then none
  else
    let t1 := s.data.filter (fun c => !(c == ('.')))
    let t2 := t1.map (fun c => if c == (',') then ('.') else c)
    let t3 := pyStrip t2
    let digits := t3.filter (fun c => c.isDigit || c == ('.'))
    pyFloat digits

/-! ### The Record Extractor: `BikeCrawler.parse_page` (lines 115-159)

The BeautifulSoup parse of the raw markup is external, so a `Doc` is the
result of the two soup queries the code makes: the list of
`script[type="application/ld+json"]` blocks (each carrying the outcome of
`json.loads` on its content, `none` when that raised) and the list of
anchors matched by `a[href*="/bikes/"]` together with the sub-queries the
code performs on each anchor. -/

structure LDScript where
  parsed : Option JValue

structure Img where
  src : Option String

structure Card where
  text : String
  href : String
  img : Option Img
  priceEl : Option String

structure Doc where
  scripts : List LDScript
  cards : List Card

/-- A Python exception escaping the modelled code. -/
inductive PyErr where
  | attributeError
  | schemaError
deriving DecidableEq

/-- A ProductRecord as built by `parse_page`: the dict of lines 132-138 /
151-157.  `price` is the `parse_price` result; the other values are
arbitrary Python values (`None` for absent). -/
structure Bike where
  name : JValue
  price : Option ℚ
  availability : JValue
  image_url : JValue
  detail_url : JValue
  specs : JValue

/-- Model of `urllib.parse.urljoin` for the reference shapes that occur
(absolute URL, root-relative path, plain relative path).  No claim
depends on its exact output. -/
def originOf (base : String) : String :=
  match base.splitOn ("://") with
  | [] => ("")
  | [only] => (only.splitOn ("/")).headD ("")
  | scheme :: rest => scheme ++ ("://") ++ ((joinSep ("://") rest).splitOn ("/")).headD ("")

def upToLastSlash (s : String) : String :=
  match s.splitOn ("/") with
  | [] => s
  | [_] => s ++ ("/")
  | parts => joinSep ("/") parts.dropLast ++ ("/")

def dirOf (base : String) : String :=
  match base.splitOn ("://") with
  | [] => base
  | [only] => upToLastSlash only
  | scheme :: rest => scheme ++ ("://") ++ upToLastSlash (joinSep ("://") rest)

def urljoin (base url : String) : String :=
  if url = ("") then base
  else if (url.splitOn ("://")).length ≥ 2 then url
  else if url.startsWith ("/") then originOf base ++ url
  else dirOf base ++ url

def isProductType (t : String) : Bool :=
  t == ("product") || t == ("bike") || t == ("bicycle")

/-- Python `str.lower()` for the ASCII type names compared here. -/
def strLower (s : String) : String := String.mk (s.data.map Char.toLower)

/-- One iteration of the `for item in entries` loop (lines 127-139).
`item.get` on a non-dict, `.lower()` on a non-string `@type`, and
`offers.get` on a truthy non-dict `offers` raise `AttributeError`, which
nothing in `parse_page` catches. -/
def processItem (item : JValue) : Except PyErr (Option Bike) :=
  match item with
  | JValue.obj fields =>
    match (jGet fields ("@type")).getD (JValue.str ("")) with
    | JValue.str ty =>
      if isProductType (strLower ty) then
        let offersRaw := (jGet fields ("offers")).getD JValue.null
        let offers := if jFalsy offersRaw then JValue.obj [] else offersRaw
        match offers with
        | JValue.obj ofs =>
          let price := parse_price (pyStr ((jGet ofs ("price")).getD JValue.null))
          let availability := (jGet ofs ("availability")).getD (JValue.str (""))
          let specsRaw := (jGet fields ("additionalProperty")).getD JValue.null
          let specs := if jFalsy specsRaw then JValue.obj [] else specsRaw
          Except.ok (some
            { name := (jGet fields ("name")).getD JValue.null
              price := price
              availability := availability
              image_url := (jGet fields ("image")).getD JValue.null
              detail_url := (jGet fields ("url")).getD JValue.null
              specs := specs })
        | _ => Except.error PyErr.attributeError
      else Except.ok none
    | _ => Except.error PyErr.attributeError
  | _ => Except.error PyErr.attributeError

/-- `entries = data if isinstance(data, list) else [data]` (line 126). -/
def entriesOf : JValue → List JValue
  | JValue.arr xs => xs
  | v => [v]

def processEntries : List JValue → List Bike → Except PyErr (List Bike)
  | [], acc => Except.ok acc
  | v :: vs, acc =>
    match processItem v with
    | Except.error e => Except.error e
    | Except.ok none => processEntries vs acc
    | Except.ok (some b) => processEntries vs (acc ++ [b])

/-- The JSON-LD loop of `parse_page` (lines 121-139): a script whose
content did not parse as JSON is skipped (`except Exception: continue`). -/
def ldFold : List LDScript → List Bike → Except PyErr (List Bike)
  | [], acc => Except.ok acc
  | sc :: scs, acc =>
    match sc.parsed with
    | none => ldFold scs acc
    | some data =>
      match processEntries (entriesOf data) acc with
      | Except.error e => Except.error e
      | Except.ok acc2 => ldFold scs acc2

/-- One iteration of the DOM-fallback loop (lines 142-158). -/
def domBike (base : String) (c : Card) : Option Bike :=
  let name := c.text
  let detailUrl : Option String :=
    if c.href ≠ ("") then some (urljoin base c.href) else none
  let imageUrl : Option String :=
    match c.img with
    | some im =>
      match im.src with
      | some src => if src ≠ ("") then some (urljoin base src) else none
      | none => none
    | none => none
  let price := parse_price (match c.priceEl with | some t => t | none => (""))
  match detailUrl with
  | some du =>
    if name ≠ ("") ∧ du ≠ ("") then
      some
        { name := JValue.str name
          price := price
          availability := JValue.str ("")
          image_url := (match imageUrl with | some u => JValue.str u | none => JValue.null)
          detail_url := JValue.str du
          specs := JValue.obj [] }
    else none
  | none => none

def domFold (base : String) : List Card → List Bike → List Bike
  | [], acc => acc
  | c :: cs, acc =>
    match domBike base c with
    | some b => domFold base cs (acc ++ [b])
    | none => domFold base cs acc

/-- `BikeCrawler.parse_page` (crawler.py lines 115-159): the JSON-LD loop
then the DOM-fallback loop, both appending to the same `bikes` list. -/
def parse_page (base : String) (doc : Doc) : Except PyErr (List Bike) :=
  match ldFold doc.scripts [] with
  | Except.error e => Except.error e
  | Except.ok ld => Except.ok (domFold base doc.cards ld)

/-! ### The Validator Adapter: `BikeCrawler.is_valid` (lines 161-170)

`jsonschema.validate` is external; its three possible behaviours on a
record are: return (valid), raise `ValidationError` (invalid), or raise
an exception of another class (notably `SchemaError` when the supplied
schema itself is invalid).  The code catches only `ValidationError`. -/

inductive VOut where
  | valid
  | invalid
  | raises
deriving DecidableEq

/-! ### The Pagination Controller: `BikeCrawler.crawl` (lines 172-198)

External collaborators, quantified over in every theorem. `fetch` is the
network/browser result for a URL (`none` models both `requests` failure
and a browser navigation error, which `fetch_page` turns into `None`);
`soup` is the BeautifulSoup parse of returned markup; `validate` is the
jsonschema check; the four booleans say which steps of
`_ensure_browser_page` succeed. -/

structure Env where
  fetch : String → Option String
  soup : String → Doc
  validate : JValue → Bike → VOut
  playwrightStartOk : Bool
  launchOk : Bool
  contextOk : Bool
  newPageOk : Bool

/-- `BikeCrawler.is_valid`: falsy schema (absent or empty dict) accepts
everything; otherwise only `ValidationError` is caught. -/
def is_valid (schema : Option JValue) (env : Env) (b : Bike) : Except PyErr Bool :=
  match schema with
  | none => Except.ok true
  | some sch =>
    if jFalsy sch then Except.ok true
    else
      match env.validate sch b with
      | VOut.valid => Except.ok true
      | VOut.invalid => Except.ok false
      | VOut.raises => Except.error PyErr.schemaError

/-- The constructor arguments of `BikeCrawler` that `crawl` reads
(timeout and browser type only influence the external collaborators). -/
structure Config where
  base_url : String
  pagination_param : String
  start_page : Nat
  end_page : Option Nat
  schema : Option JValue
  use_browser : Bool

/-- `base_url.rstrip('/')` performed by `BikeCrawler.__init__` (line 33). -/
def initBaseUrl (s : String) : String :=
  String.mk (s.data.reverse.dropWhile (fun c => c == ('/'))).reverse

/-- The four lazily acquired browser resources (`_playwright`, `_browser`,
`_context`, `_page`): `true` means the handle is live. -/
structure Session where
  playwright : Bool
  browser : Bool
  context : Bool
  page : Bool

def Session.closed : Session :=
  { playwright := false, browser := false, context := false, page := false }

/-- `BikeCrawler._ensure_browser_page` (lines 68-82).  Each failing
acquisition step raises, leaving the already acquired prefix live; the
`except` in `fetch_page` swallows the exception, so the result is a flag
rather than an `Except`. -/
def ensurePage (env : Env) (s : Session) : Session × Bool :=
  if s.page then (s, true)
  else if ¬ s.playwright ∧ ¬ env.playwrightStartOk then (s, false)
  else
    let s1 := { s with playwright := true }
    if ¬ env.launchOk then (s1, false)
    else
      let s2 := { s1 with browser := true }
      if ¬ env.contextOk then (s2, false)
      else
        let s3 := { s2 with context := true }
        if ¬ env.newPageOk then (s3, false)
        else ({ s3 with page := true }, true)

/-- `BikeCrawler.close` (lines 90-102): closes page, context, browser,
playwright in that order, nulling each handle. -/
def closeSession (s : Session) : Session :=
  let s1 := if s.page then { s with page := false } else s
  let s2 := if s1.context then { s1 with context := false } else s1
  let s3 := if s2.browser then { s2 with browser := false } else s2
  if s3.playwright then { s3 with playwright := false } else s3

/-- `BikeCrawler.fetch_page` (lines 47-66): browser branch first ensures
the page (any exception is caught and yields `None`), then navigates;
otherwise a plain GET.  Both failure modes surface only as `none`. -/
def fetchPage (cfg : Config) (env : Env) (url : String) (sess : Session) :
    Session × Option String :=
  if cfg.use_browser then
    let r := ensurePage env sess
    (r.1, if r.2 then env.fetch url else none)
  else (sess, env.fetch url)

/-- Left-to-right non-overlapping replacement of a non-empty pattern in a
character list, with the list length as structural fuel (each step
consumes at least one character). -/
def replaceAllAux (pat rep : List Char) : Nat → List Char → List Char
  | 0, l => l
  | fuel + 1, l =>
    if pat ≠ [] ∧ pat.isPrefixOf l then
      rep ++ replaceAllAux pat rep fuel (l.drop pat.length)
    else
      match l with
      | [] => []
      | c :: cs => c :: replaceAllAux pat rep fuel cs

def strReplace (s pat rep : String) : String :=
  String.mk (replaceAllAux pat.data rep.data s.data.length s.data)

/-- `self.pagination_param.format(page_num=page_num)` for a template
containing the `{page_num}` placeholder. -/
def formatPageNum (tmpl : String) (n : Nat) : String :=
  strReplace tmpl ("{page_num}") (toString n)

/-- URL construction of lines 178-181. -/
def urlFor (cfg : Config) (p : Nat) : String :=
  if p = cfg.start_page then cfg.base_url
  else cfg.base_url ++ formatPageNum cfg.pagination_param p

/-- `if self.end_page and page_num > self.end_page` (line 191): note the
truthiness test, under which a configured `end_page` of 0 is ignored. -/
def endBreak (endPage : Option Nat) (p : Nat) : Bool :=
  match endPage with
  | some e => decide (e ≠ 0 ∧ e < p)
  | none => false

/-- The `for bike in bikes: if self.is_valid(bike): all_bikes.append(bike)`
loop (lines 186-188); a raise from `is_valid` aborts it, keeping the
bikes appended so far. -/
def appendValid (schema : Option JValue) (env : Env) :
    List Bike → List Bike → List Bike × Option PyErr
  | [], acc => (acc, none)
  | b :: bs, acc =>
    match is_valid schema env b with
    | Except.error e => (acc, some e)
    | Except.ok true => appendValid schema env bs (acc ++ [b])
    | Except.ok false => appendValid schema env bs acc

/-- Loop state of `crawl`: current page number, the `all_bikes`
accumulator, the trace of fetch attempts (page number and URL, appended
when `fetch_page` is called), the trace of documents handed to
`parse_page`, and the browser session. -/
structure St where
  page : Nat
  acc : List Bike
  fetched : List (Nat × String)
  parsed : List String
  sess : Session

inductive StepOut where
  | next (s : St)
  | stop (s : St)
  | err (s : St) (e : PyErr)

def StepOut.state : StepOut → St
  | StepOut.next s => s
  | StepOut.stop s => s
  | StepOut.err s _ => s

def StepOut.isNext : StepOut → Bool
  | StepOut.next _ => true
  | _ => false

/-- Lines 190-194 of the loop body: `page_num += 1`, then the `end_page`
break, then the empty-page break, otherwise continue. -/
def stepValidated (cfg : Config) (bikes : List Bike) (s3 : St) : StepOut :=
  let s4 : St := { s3 with page := s3.page + 1 }
  if endBreak cfg.end_page s4.page then StepOut.stop s4
  else if bikes.isEmpty then StepOut.stop s4
  else StepOut.next s4

/-- Lines 185-194: the result of `parse_page` (an uncaught exception
propagates), then the validation loop, then the page advance. -/
def stepParsed (cfg : Config) (env : Env) (s2 : St)
    (res : Except PyErr (List Bike)) : StepOut :=
  match res with
  | Except.error e => StepOut.err s2 e
  | Except.ok bikes =>
    let va := appendValid cfg.schema env bikes s2.acc
    let s3 : St := { s2 with acc := va.1 }
    match va.2 with
    | some e => StepOut.err s3 e
    | none => stepValidated cfg bikes s3

/-- Lines 182-194: `break` on falsy markup (`None` or `""`), otherwise
extract. -/
def stepFetched (cfg : Config) (env : Env) (s1 : St) (htmlOpt : Option String) : StepOut :=
  match htmlOpt with
  | none => StepOut.stop s1
  | some html =>
    if html = ("") then StepOut.stop s1
    else stepParsed cfg env { s1 with parsed := s1.parsed ++ [html] }
      (parse_page cfg.base_url (env.soup html))

/-- One iteration of the `while True` body of `crawl` (lines 177-194):
build the URL, fetch, then `stepFetched`. -/
def step (cfg : Config) (env : Env) (s : St) : StepOut :=
  let url := urlFor cfg s.page
  stepFetched cfg env
    { s with sess := (fetchPage cfg env url s.sess).1,
             fetched := s.fetched ++ [(s.page, url)] }
    ((fetchPage cfg env url s.sess).2)

inductive RunExit where
  | terminated
  | raised (e : PyErr)
  | fuelOut
deriving DecidableEq

/-- The `while True` loop, indexed by fuel (the loop need not terminate,
e.g. with no `end_page` and every page non-empty). -/
def loop (cfg : Config) (env : Env) : Nat → St → St × RunExit
  | 0, s => (s, RunExit.fuelOut)
  | n + 1, s =>
    match step cfg env s with
    | StepOut.stop s1 => (s1, RunExit.terminated)
    | StepOut.err s1 e => (s1, RunExit.raised e)
    | StepOut.next s1 => loop cfg env n s1

inductive CrawlResult where
  | finished (bikes : List Bike)
  | raised (e : PyErr)
  | fuelOut

def CrawlResult.isFuelOut : CrawlResult → Bool
  | CrawlResult.fuelOut => true
  | _ => false

/-- `BikeCrawler.crawl` from an arbitrary loop state: the `try ... finally`
of lines 176-197 runs `close` on every loop exit (normal break or raised
exception) when `use_browser` is set; `fuelOut` means the loop is still
running, so the `finally` has not executed yet. -/
def crawlFrom (cfg : Config) (env : Env) (fuel : Nat) (s : St) : CrawlResult × St :=
  let r := loop cfg env fuel s
  match r.2 with
  | RunExit.terminated =>
    (CrawlResult.finished r.1.acc,
     if cfg.use_browser then { r.1 with sess := closeSession r.1.sess } else r.1)
  | RunExit.raised e =>
    (CrawlResult.raised e,
     if cfg.use_browser then { r.1 with sess := closeSession r.1.sess } else r.1)
  | RunExit.fuelOut => (CrawlResult.fuelOut, r.1)

/-- Initial state of a run (line 174-175: empty accumulator, page number
at `start_page`, no browser resources acquired yet). -/
def initSt (cfg : Config) : St :=
  { page := cfg.start_page, acc := [], fetched := [], parsed := [], sess := Session.closed }

def crawl (cfg : Config) (env : Env) (fuel : Nat) : CrawlResult × St :=
  crawlFrom cfg env fuel (initSt cfg)

/-- Claim C1 is stated via this predicate: the `i`-th fetch of a run is of
page `start_page + i`, at the bare base URL for the start page and the
base URL with the instantiated pagination template otherwise. -/
def TraceOK (cfg : Config) (l : List (Nat × String)) : Prop :=
  ∀ i, i < l.length →
    l[i]? = some (cfg.start_page + i, urlFor cfg (cfg.start_page + i))

/-! ### Concrete inputs used by counterexamples and witnesses -/

def emptyDoc : Doc := { scripts := [], cards := [] }

def envNone : Env :=
  { fetch := fun _ => none
    soup := fun _ => emptyDoc
    validate := fun _ _ => VOut.valid
    playwrightStartOk := true
    launchOk := true
    contextOk := true
    newPageOk := true }

def envEmptyPage : Env := { envNone with fetch := fun _ => some ("<html></html>") }

def cfgCX : Config :=
  { base_url := ("http://example.com/bikes")
    pagination_param := ("?page={page_num}")
    start_page := 2
    end_page := some 1
    schema := none
    use_browser := false }

def cfgOne : Config := { cfgCX with start_page := 1, end_page := some 1 }

def cfgNoEnd : Config := { cfgOne with end_page := none }

def cfgBrowser : Config := { cfgOne with use_browser := true }

def prodScript : LDScript :=
  { parsed := some (JValue.obj
      [(("@type"), JValue.str ("Product")), (("name"), JValue.str ("A"))]) }

def badScript : LDScript := { parsed := none }

def bikeA : Bike :=
  { name := JValue.str ("A"), price := none, availability := JValue.str ("")
    image_url := JValue.null, detail_url := JValue.null, specs := JValue.obj [] }

def dupDoc : Doc := { scripts := [prodScript, prodScript], cards := [] }

/-- A script block whose content is the valid JSON `[1]`: the item `1` is
not a dict, so `item.get('@type', '')` raises `AttributeError`. -/
def badItemDoc : Doc :=
  { scripts := [{ parsed := some (JValue.arr [JValue.num (JNum.int 1)]) }], cards := [] }

/-- A JSON-LD product whose offer price is the JSON number `1000.5`
(written as the rational `2001/2`). -/
def priceDoc : Doc :=
  { scripts := [{ parsed := some (JValue.obj
      [(("@type"), JValue.str ("Product")),
       (("offers"), JValue.obj [(("price"), JValue.num (JNum.float (mkRat 2001 2)))])]) }]
    cards := [] }

def bikeP : Bike :=
  { name := JValue.null, price := some (mkRat 10005 1), availability := JValue.str ("")
    image_url := JValue.null, detail_url := JValue.null, specs := JValue.obj [] }

/-- A JSON-LD product whose offers dict has no price key. -/
def noPriceDoc : Doc :=
  { scripts := [{ parsed := some (JValue.obj
      [(("@type"), JValue.str ("Product")),
       (("offers"), JValue.obj [(("availability"), JValue.str ("InStock"))])]) }]
    cards := [] }

def bikeNoPrice : Bike :=
  { name := JValue.null, price := none, availability := JValue.str ("InStock")
    image_url := JValue.null, detail_url := JValue.null, specs := JValue.obj [] }

/-- A truthy, valid schema shaped like the repository test's: requires
`name`, `price`, `availability` and types `price` as a number (so a
record whose price is `None` fails validation). -/
def schReq : JValue := JValue.obj
  [(("properties"), JValue.obj [(("price"), JValue.obj [(("type"), JValue.str ("number"))])]),
   (("required"), JValue.arr [JValue.str ("name"), JValue.str ("price"), JValue.str ("availability")])]

/-- A truthy but invalid schema: `required` must be an array of strings,
so `jsonschema.validate` raises `SchemaError` (which is not a
`ValidationError`) before examining the instance. -/
def schBad : JValue := JValue.obj [(("required"), JValue.str ("name"))]

def envRaise : Env := { envNone with validate := fun _ _ => VOut.raises }

def envReject : Env := { envNone with validate := fun _ _ => VOut.invalid }

/-- Environment whose every page parses to two (rejected) records. -/
def envValPage : Env :=
  { envReject with fetch := fun _ => some ("x"), soup := fun _ => dupDoc }

def cfgVal : Config := { cfgNoEnd with schema := some schReq }

/-- Environment whose every fetch succeeds with markup that parses to an
empty document. -/
def envX : Env := { envNone with fetch := fun _ => some ("x") }

/-- Environment whose every fetch succeeds with the empty string. -/
def envEmptyStr : Env := { envNone with fetch := fun _ => some ("") }

/-! ### Helper lemmas -/

theorem mem_pyStrip {c : Char} {l : List Char} (h : c ∈ pyStrip l) : c ∈ l := by
  unfold pyStrip at h
  rw [List.mem_reverse] at h
  have h1 := (List.dropWhile_sublist _).subset h
  rw [List.mem_reverse] at h1
  exact (List.dropWhile_sublist _).subset h1

theorem pyFloat_allDots (l : List Char) (h : ∀ c ∈ l, c = ('.')) : pyFloat l = none := by
  have ht : ∀ c ∈ pyStrip l, c = ('.') := fun c hc => h c (mem_pyStrip hc)
  unfold pyFloat
  have hall : (pyStrip l).all (fun c => c.isDigit || c == ('.')) = true := by
    rw [List.all_eq_true]
    intro c hc
    rw [ht c hc]
    rfl
  rw [if_pos hall]
  have hcount : (pyStrip l).count ('.') = (pyStrip l).length :=
    List.count_eq_length.mpr (fun b hb => (ht b hb).symm)
  rcases hl : pyStrip l with _ | ⟨c1, _ | ⟨c2, rest⟩⟩
  · rfl
  · have hc1 : c1 = ('.') := ht c1 (by rw [hl]; exact List.mem_singleton.mpr rfl)
    subst hc1
    rfl
  · have hcl : List.count ('.') (c1 :: c2 :: rest) = (c1 :: c2 :: rest).length := by
      rw [← hl]; exact hcount
    have h2 : ¬ (List.count ('.') (c1 :: c2 :: rest) = 0) := by
      rw [hcl]; simp only [List.length_cons]; omega
    have h3 : ¬ (List.count ('.') (c1 :: c2 :: rest) = 1) := by
      rw [hcl]; simp only [List.length_cons]; omega
    rw [if_neg h2, if_neg h3]

theorem parse_price_noDigits (s : String) (h : ∀ c ∈ s.data, c.isDigit = false) :
    parse_price s = none := by
  unfold parse_price
  by_cases hs : s = ("")
  · rw [if_pos hs]
  · rw [if_neg hs]
    apply pyFloat_allDots
    intro c hc
    rw [List.mem_filter] at hc
    obtain ⟨hmem, hpred⟩ := hc
    have hmem2 := mem_pyStrip hmem
    rw [List.mem_map] at hmem2
    obtain ⟨a, ha, hac⟩ := hmem2
    rw [List.mem_filter] at ha
    have had : a.isDigit = false := h a ha.1
    by_cases hcomma : (a == (',')) = true
    · rw [if_pos hcomma] at hac
      exact hac.symm
    · rw [if_neg hcomma] at hac
      subst hac
      rw [had] at hpred
      simpa using hpred

theorem ldFold_skip (bad : LDScript) (hb : bad.parsed = none) :
    ∀ (pre post : List LDScript) (acc : List Bike),
      ldFold (pre ++ bad :: post) acc = ldFold (pre ++ post) acc := by
  intro pre
  induction pre with
  | nil =>
    intro post acc
    simp only [List.nil_append, ldFold, hb]
  | cons sc pre ih =>
    intro post acc
    cases hp : sc.parsed with
    | none =>
      simp only [List.cons_append, ldFold, hp]
      exact ih post acc
    | some data =>
      simp only [List.cons_append, ldFold, hp]
      cases hq : processEntries (entriesOf data) acc with
      | error e => simp only [hq]
      | ok acc2 =>
        simp only [hq]
        exact ih post acc2

theorem processEntries_acc : ∀ (vs : List JValue) (acc : List Bike),
    processEntries vs acc = Except.map (fun l => acc ++ l) (processEntries vs []) := by
  intro vs
  induction vs with
  | nil => intro acc; simp [processEntries, Except.map]
  | cons v vs ih =>
    intro acc
    cases hp : processItem v with
    | error e => simp only [processEntries, hp, Except.map]
    | ok ob =>
      cases ob with
      | none =>
        simp only [processEntries, hp]
        exact ih acc
      | some b =>
        simp only [processEntries, hp, List.nil_append]
        rw [ih (acc ++ [b]), ih [b]]
        cases processEntries vs [] with
        | error e => rfl
        | ok l => simp [Except.map, List.append_assoc]

theorem ldFold_acc : ∀ (scs : List LDScript) (acc : List Bike),
    ldFold scs acc = Except.map (fun l => acc ++ l) (ldFold scs []) := by
  intro scs
  induction scs with
  | nil => intro acc; simp [ldFold, Except.map]
  | cons sc scs ih =>
    intro acc
    cases hp : sc.parsed with
    | none =>
      simp only [ldFold, hp]
      exact ih acc
    | some data =>
      simp only [ldFold, hp]
      rw [processEntries_acc (entriesOf data) acc]
      cases hq : processEntries (entriesOf data) [] with
      | error e => simp [hq, Except.map]
      | ok l =>
        simp only [hq, Except.map]
        rw [ih (acc ++ l), ih l]
        cases ldFold scs [] with
        | error e => rfl
        | ok l2 => simp [Except.map, List.append_assoc]

theorem domFold_acc (base : String) : ∀ (cards : List Card) (acc : List Bike),
    domFold base cards acc = acc ++ domFold base cards [] := by
  intro cards
  induction cards with
  | nil => intro acc; simp [domFold]
  | cons c cs ih =>
    intro acc
    cases hd : domBike base c with
    | none =>
      simp only [domFold, hd]
      exact ih acc
    | some b =>
      simp only [domFold, hd, List.nil_append]
      rw [ih (acc ++ [b]), ih [b]]
      simp [List.append_assoc]

theorem domFold_fuse (base : String) : ∀ (c1 c2 : List Card) (acc : List Bike),
    domFold base (c1 ++ c2) acc = domFold base c2 (domFold base c1 acc) := by
  intro c1
  induction c1 with
  | nil => intro c2 acc; simp [domFold]
  | cons c cs ih =>
    intro c2 acc
    cases hd : domBike base c with
    | none =>
      simp only [List.cons_append, domFold, hd]
      exact ih c2 acc
    | some b =>
      simp only [List.cons_append, domFold, hd]
      exact ih c2 (acc ++ [b])

/-! ### Claims about the Price Normalizer and the Record Extractor -/

/-- Claim C3: `parse_price` removes dots, maps commas to dots, strips,
keeps digits and dots, and parses; it is total (never raises), returns
`none` on the empty string, on any string without digit characters, and
when several dots survive the filter, and maps `"1.000,50"` to `1000.50`
and `"1.234.567,89"` to `1234567.89`. -/
theorem spec_c3 :
    parse_price ("1.000,50") = some (mkRat 100050 100) ∧
    parse_price ("") = none ∧
    parse_price ("abc") = none ∧
    parse_price ("1.234.567,89") = some (mkRat 123456789 100) ∧
    parse_price ("1,2,3") = none ∧
    (∀ s : String, (∀ c ∈ s.data, c.isDigit = false) → parse_price s = none) :=
  ⟨rfl, rfl, rfl, rfl, rfl, parse_price_noDigits⟩

/-- Witness for C3: the no-digit clause applied to the concrete string
`"x-y z"`. -/
theorem spec_c3_witness : parse_price ("x-y z") = none :=
  spec_c3.2.2.2.2.2 ("x-y z") (by decide)

/-- Claim C6: a structured-data block whose content is not valid JSON
(`parsed = none`, i.e. `json.loads` raised) is skipped: extraction of the
remaining blocks and of the DOM fallback is exactly that of the document
without the bad block. -/
theorem spec_c6 (base : String) (pre post : List LDScript) (cards : List Card)
    (bad : LDScript) (hb : bad.parsed = none) :
    parse_page base { scripts := pre ++ bad :: post, cards := cards } =
      parse_page base { scripts := pre ++ post, cards := cards } := by
  unfold parse_page
  rw [ldFold_skip bad hb]

/-- Witness for C6: dropping a malformed block in front of a product
block leaves extraction unchanged. -/
theorem spec_c6_witness :
    parse_page ("http://e") { scripts := [] ++ badScript :: [prodScript], cards := [] } =
      parse_page ("http://e") { scripts := [] ++ [prodScript], cards := [] } :=
  spec_c6 ("http://e") [] [prodScript] [] badScript rfl

/-- Counterexample for C7: on the document whose single structured-data
block is the valid JSON `[1]`, `parse_page` raises `AttributeError`
(`item.get` on the non-dict entry `1`, line 128) instead of returning the
concatenation of the two strategies' outputs (which would be
`Except.ok []`), so the claim does not hold for every document. -/
theorem spec_c7_counterexample :
    parse_page ("http://e") badItemDoc = Except.error PyErr.attributeError :=
  rfl

/-- Claim C7 (amended): for every document on which the structured-data
strategy completes without raising, `parse_page` returns the
structured-data records followed by the DOM-fallback records, each
strategy preserving document order (the DOM strategy distributes over
`++`), and performs no deduplication: a document with two identical
product blocks yields the same record twice. -/
theorem spec_c7 :
    (∀ (base : String) (doc : Doc) (L : List Bike),
        ldFold doc.scripts [] = Except.ok L →
        parse_page base doc = Except.ok (L ++ domFold base doc.cards [])) ∧
    (∀ (base : String) (c1 c2 : List Card),
        domFold base (c1 ++ c2) [] = domFold base c1 [] ++ domFold base c2 []) ∧
    parse_page ("http://e") dupDoc = Except.ok [bikeA, bikeA] := by
  refine ⟨?_, ?_, rfl⟩
  · intro base doc L h
    have hpp : parse_page base doc = Except.ok (domFold base doc.cards L) := by
      unfold parse_page
      rw [h]
    rw [hpp, domFold_acc]
  · intro base c1 c2
    rw [domFold_fuse, domFold_acc]

/-- Witness for C7: the decomposition applied to the concrete
two-product document. -/
theorem spec_c7_witness :
    parse_page ("http://e") dupDoc =
      Except.ok ([bikeA, bikeA] ++ domFold ("http://e") dupDoc.cards []) :=
  spec_c7.1 ("http://e") dupDoc [bikeA, bikeA] rfl

/-- Claim C9: the structured-data strategy coerces the offer price to
text before normalisation, so the JSON number `1000.5` comes out as the
price `10005` (the dot is stripped as a thousands separator), while an
absent offer price yields an absent record price, because
`str(None) = "None"` contains no digits. -/
theorem spec_c9 :
    (parse_page ("http://e") priceDoc = Except.ok [bikeP] ∧
      bikeP.price = some (mkRat 10005 1)) ∧
    (∀ ofs : List (String × JValue), jGet ofs ("price") = none →
        parse_price (pyStr ((jGet ofs ("price")).getD JValue.null)) = none) ∧
    (parse_page ("http://e") noPriceDoc = Except.ok [bikeNoPrice] ∧
      bikeNoPrice.price = none) := by
  refine ⟨⟨rfl, rfl⟩, ?_, rfl, rfl⟩
  intro ofs h
  rw [h]
  rfl

/-- Witness for C9: the absent-price clause applied to a concrete offers
dict without a price key. -/
theorem spec_c9_witness :
    parse_price (pyStr ((jGet [(("availability"), JValue.str ("InStock"))] ("price")).getD
      JValue.null)) = none :=
  spec_c9.2.1 [(("availability"), JValue.str ("InStock"))] rfl

/-! ### Controller helper lemmas -/

theorem closeSession_eq (s : Session) : closeSession s = Session.closed := by
  obtain ⟨a, b, c, d⟩ := s
  cases a <;> cases b <;> cases c <;> cases d <;> rfl

theorem appendValid_none (schema : Option JValue) (env : Env) :
    ∀ (bikes acc : List Bike),
      (∀ b ∈ bikes, is_valid schema env b = Except.ok false) →
      appendValid schema env bikes acc = (acc, none) := by
  intro bikes
  induction bikes with
  | nil => intro acc _; rfl
  | cons b bs ih =>
    intro acc h
    have hb : is_valid schema env b = Except.ok false := h b (by simp)
    simp only [appendValid, hb]
    exact ih acc (fun x hx => h x (by simp [hx]))

theorem step_fetchNone (cfg : Config) (env : Env) (s : St)
    (hf : (fetchPage cfg env (urlFor cfg s.page) s.sess).2 = none) :
    step cfg env s = StepOut.stop
      { s with sess := (fetchPage cfg env (urlFor cfg s.page) s.sess).1,
               fetched := s.fetched ++ [(s.page, urlFor cfg s.page)] } := by
  simp only [step, hf, stepFetched]

theorem step_fetchEmptyStr (cfg : Config) (env : Env) (s : St)
    (hf : (fetchPage cfg env (urlFor cfg s.page) s.sess).2 = some ("")) :
    step cfg env s = StepOut.stop
      { s with sess := (fetchPage cfg env (urlFor cfg s.page) s.sess).1,
               fetched := s.fetched ++ [(s.page, urlFor cfg s.page)] } := by
  simp only [step, hf, stepFetched, if_true]

theorem step_toParsed (cfg : Config) (env : Env) (s : St) (html : String)
    (hf : (fetchPage cfg env (urlFor cfg s.page) s.sess).2 = some html)
    (hh : ¬ (html = (""))) :
    step cfg env s = stepParsed cfg env
      { s with sess := (fetchPage cfg env (urlFor cfg s.page) s.sess).1,
               fetched := s.fetched ++ [(s.page, urlFor cfg s.page)],
               parsed := s.parsed ++ [html] }
      (parse_page cfg.base_url (env.soup html)) := by
  simp only [step, hf, stepFetched]
  rw [if_neg hh]

theorem step_parseOkStop (cfg : Config) (env : Env) (s : St) (html : String)
    (hf : (fetchPage cfg env (urlFor cfg s.page) s.sess).2 = some html)
    (hh : ¬ (html = ("")))
    (hp : parse_page cfg.base_url (env.soup html) = Except.ok []) :
    step cfg env s = StepOut.stop
      { s with sess := (fetchPage cfg env (urlFor cfg s.page) s.sess).1,
               fetched := s.fetched ++ [(s.page, urlFor cfg s.page)],
               parsed := s.parsed ++ [html],
               page := s.page + 1 } := by
  rw [step_toParsed cfg env s html hf hh, hp]
  simp only [stepParsed, appendValid, stepValidated]
  cases he : endBreak cfg.end_page (s.page + 1) with
  | false => simp [he]
  | true => simp [he]

theorem step_rejectedNext (cfg : Config) (env : Env) (s : St) (html : String)
    (bikes : List Bike)
    (hf : (fetchPage cfg env (urlFor cfg s.page) s.sess).2 = some html)
    (hh : ¬ (html = ("")))
    (hp : parse_page cfg.base_url (env.soup html) = Except.ok bikes)
    (hbne : bikes ≠ [])
    (hall : ∀ b ∈ bikes, is_valid cfg.schema env b = Except.ok false)
    (hend : endBreak cfg.end_page (s.page + 1) = false) :
    step cfg env s = StepOut.next
      { s with sess := (fetchPage cfg env (urlFor cfg s.page) s.sess).1,
               fetched := s.fetched ++ [(s.page, urlFor cfg s.page)],
               parsed := s.parsed ++ [html],
               page := s.page + 1 } := by
  have hbe : bikes.isEmpty = false := by
    cases bikes with
    | nil => exact absurd rfl hbne
    | cons b bs => rfl
  have happ := appendValid_none cfg.schema env bikes s.acc hall
  rw [step_toParsed cfg env s html hf hh, hp]
  simp only [stepParsed, happ, stepValidated]
  simp [hend, hbe]

theorem stepParsed_shape (cfg : Config) (env : Env) (s2 : St)
    (res : Except PyErr (List Bike)) :
    (∃ s9, stepParsed cfg env s2 res = StepOut.next s9 ∧
        s9.fetched = s2.fetched ∧ s9.page = s2.page + 1 ∧
        endBreak cfg.end_page (s2.page + 1) = false) ∨
    (∃ s9, ((stepParsed cfg env s2 res = StepOut.stop s9) ∨
        (∃ e, stepParsed cfg env s2 res = StepOut.err s9 e)) ∧
        s9.fetched = s2.fetched ∧ (s9.page = s2.page ∨ s9.page = s2.page + 1)) := by
  cases res with
  | error e =>
    right
    exact ⟨s2, Or.inr ⟨e, rfl⟩, rfl, Or.inl rfl⟩
  | ok bikes =>
    simp only [stepParsed]
    cases hv : (appendValid cfg.schema env bikes s2.acc).2 with
    | some e =>
      right
      exact ⟨_, Or.inr ⟨e, rfl⟩, rfl, Or.inl rfl⟩
    | none =>
      simp only [stepValidated]
      cases he : endBreak cfg.end_page (s2.page + 1) with
      | true =>
        right
        exact ⟨_, Or.inl rfl, rfl, Or.inr rfl⟩
      | false =>
        cases hbe : bikes.isEmpty with
        | true =>
          right
          exact ⟨_, Or.inl rfl, rfl, Or.inr rfl⟩
        | false =>
          left
          exact ⟨_, rfl, rfl, rfl, rfl⟩

theorem step_shape (cfg : Config) (env : Env) (s : St) :
    (∃ s1, step cfg env s = StepOut.next s1 ∧
        s1.fetched = s.fetched ++ [(s.page, urlFor cfg s.page)] ∧
        s1.page = s.page + 1 ∧
        endBreak cfg.end_page (s.page + 1) = false) ∨
    (∃ s1, ((step cfg env s = StepOut.stop s1) ∨ (∃ e, step cfg env s = StepOut.err s1 e)) ∧
        s1.fetched = s.fetched ++ [(s.page, urlFor cfg s.page)] ∧
        (s1.page = s.page ∨ s1.page = s.page + 1)) := by
  cases hf : (fetchPage cfg env (urlFor cfg s.page) s.sess).2 with
  | none =>
    right
    exact ⟨_, Or.inl (step_fetchNone cfg env s hf), rfl, Or.inl rfl⟩
  | some html =>
    by_cases hh : html = ("")
    · subst hh
      right
      exact ⟨_, Or.inl (step_fetchEmptyStr cfg env s hf), rfl, Or.inl rfl⟩
    · have hstep := step_toParsed cfg env s html hf hh
      rcases stepParsed_shape cfg env
          { s with sess := (fetchPage cfg env (urlFor cfg s.page) s.sess).1,
                   fetched := s.fetched ++ [(s.page, urlFor cfg s.page)],
                   parsed := s.parsed ++ [html] }
          (parse_page cfg.base_url (env.soup html)) with
        ⟨s9, h9, hf9, hp9, he9⟩ | ⟨s9, h9, hf9, hp9⟩
      · left
        refine ⟨s9, hstep.trans h9, ?_, ?_, ?_⟩
        · rw [hf9]
        · rw [hp9]
        · exact he9
      · right
        rcases h9 with h9 | ⟨e, h9⟩
        · refine ⟨s9, Or.inl (hstep.trans h9), ?_, ?_⟩
          · rw [hf9]
          · exact hp9
        · refine ⟨s9, Or.inr ⟨e, hstep.trans h9⟩, ?_, ?_⟩
          · rw [hf9]
          · exact hp9

theorem traceOK_nil (cfg : Config) : TraceOK cfg [] := by
  intro i hi
  simp at hi

theorem traceOK_snoc (cfg : Config) (l : List (Nat × String)) (h : TraceOK cfg l) :
    TraceOK cfg
      (l ++ [(cfg.start_page + l.length, urlFor cfg (cfg.start_page + l.length))]) := by
  intro i hi
  rw [List.length_append, List.length_singleton] at hi
  rcases Nat.lt_or_ge i l.length with hlt | hge
  · rw [List.getElem?_append_left hlt]
    exact h i hlt
  · have hi2 : i = l.length := by omega
    subst hi2
    rw [List.getElem?_concat_length]

theorem loop_traceOK (cfg : Config) (env : Env) :
    ∀ (fuel : Nat) (s : St), s.page = cfg.start_page + s.fetched.length →
      TraceOK cfg s.fetched → TraceOK cfg ((loop cfg env fuel s).1).fetched := by
  intro fuel
  induction fuel with
  | zero =>
    intro s hp ht
    simpa [loop] using ht
  | succ n ih =>
    intro s hp ht
    have hsnoc : TraceOK cfg (s.fetched ++ [(s.page, urlFor cfg s.page)]) := by
      rw [hp]
      exact traceOK_snoc cfg s.fetched ht
    rcases step_shape cfg env s with ⟨s1, hst, hf, hpg, _⟩ | ⟨s1, hcase, hf, _⟩
    · have hl : loop cfg env (n + 1) s = loop cfg env n s1 := by
        simp [loop, hst]
      rw [hl]
      apply ih
      · rw [hpg, hf, hp]
        simp only [List.length_append, List.length_singleton]
        omega
      · rw [hf]
        exact hsnoc
    · rcases hcase with hst | ⟨e, hst⟩
      · have hl : loop cfg env (n + 1) s = (s1, RunExit.terminated) := by
          simp [loop, hst]
        rw [hl, hf]
        exact hsnoc
      · have hl : loop cfg env (n + 1) s = (s1, RunExit.raised e) := by
          simp [loop, hst]
        rw [hl, hf]
        exact hsnoc

theorem loop_endBound (cfg : Config) (env : Env) (e : Nat)
    (he : cfg.end_page = some e) (hne : e ≠ 0) :
    ∀ (fuel : Nat) (s : St), s.page ≤ e → (∀ pr ∈ s.fetched, pr.1 ≤ e) →
      ∀ pr ∈ ((loop cfg env fuel s).1).fetched, pr.1 ≤ e := by
  intro fuel
  induction fuel with
  | zero =>
    intro s hp hall
    simpa [loop] using hall
  | succ n ih =>
    intro s hp hall
    have hsnoc : ∀ pr ∈ s.fetched ++ [(s.page, urlFor cfg s.page)], pr.1 ≤ e := by
      intro pr hpr
      rw [List.mem_append] at hpr
      rcases hpr with hpr | hpr
      · exact hall pr hpr
      · rw [List.mem_singleton] at hpr
        subst hpr
        exact hp
    rcases step_shape cfg env s with ⟨s1, hst, hf, hpg, hend⟩ | ⟨s1, hcase, hf, _⟩
    · have hl : loop cfg env (n + 1) s = loop cfg env n s1 := by
        simp [loop, hst]
      rw [hl]
      apply ih
      · rw [he] at hend
        simp only [endBreak, decide_eq_false_iff_not] at hend
        rw [hpg]
        omega
      · rw [hf]
        exact hsnoc
    · rcases hcase with hst | ⟨e2, hst⟩
      · have hl : loop cfg env (n + 1) s = (s1, RunExit.terminated) := by
          simp [loop, hst]
        rw [hl, hf]
        exact hsnoc
      · have hl : loop cfg env (n + 1) s = (s1, RunExit.raised e2) := by
          simp [loop, hst]
        rw [hl, hf]
        exact hsnoc

theorem loop_single (cfg : Config) (env : Env)
    (h1 : cfg.start_page = 1) (h2 : cfg.end_page = some 1) (n : Nat) :
    ((loop cfg env (n + 1) (initSt cfg)).1).fetched = [(1, cfg.base_url)] := by
  have hpg0 : (initSt cfg).page = 1 := by
    simp [initSt, h1]
  have hurl : urlFor cfg ((initSt cfg).page) = cfg.base_url := by
    simp [initSt, urlFor]
  rcases step_shape cfg env (initSt cfg) with ⟨s1, hst, hf, _, hend⟩ | ⟨s1, hcase, hf, _⟩
  · exfalso
    rw [h2, hpg0] at hend
    simp [endBreak] at hend
  · have hfe : s1.fetched = [(1, cfg.base_url)] := by
      rw [hf, hurl, hpg0]
      simp [initSt]
    rcases hcase with hst | ⟨e, hst⟩
    · have hl : loop cfg env (n + 1) (initSt cfg) = (s1, RunExit.terminated) := by
        simp [loop, hst]
      rw [hl]
      exact hfe
    · have hl : loop cfg env (n + 1) (initSt cfg) = (s1, RunExit.raised e) := by
        simp [loop, hst]
      rw [hl]
      exact hfe

/-! ### Claims about the Pagination Controller -/

/-- Counterexample for C1: with `start_page = 2` and `end_page = 1`, the
very first iteration fetches page 2, whose number exceeds the configured
`end_page`, because the `end_page` check runs only after a page has been
processed (line 191); so "no page whose number exceeds end_page is ever
fetched" fails. -/
theorem spec_c1_counterexample :
    cfgCX.start_page = 2 ∧ cfgCX.end_page = some 1 ∧
    ((loop cfgCX envNone 1 (initSt cfgCX)).1).fetched =
      [(2, ("http://example.com/bikes"))] ∧
    (1 : Nat) < 2 :=
  ⟨rfl, rfl, rfl, by omega⟩

/-- Claim C1 (amended): in every run the `i`-th fetch is of page
`start_page + i` (page numbers increase strictly by 1), at the literal
base URL for the start page and at the base URL concatenated with the
instantiated pagination template otherwise; when `end_page` is configured
to a nonzero value and `start_page ≤ end_page`, no fetched page number
exceeds `end_page`; and with `start_page = 1`, `end_page = 1` exactly one
fetch occurs, of the base URL, whatever the environment does. -/
theorem spec_c1 (cfg : Config) (env : Env) (fuel : Nat) :
    TraceOK cfg ((loop cfg env fuel (initSt cfg)).1).fetched ∧
    (∀ e, cfg.end_page = some e → e ≠ 0 → cfg.start_page ≤ e →
      ∀ pr ∈ ((loop cfg env fuel (initSt cfg)).1).fetched, pr.1 ≤ e) ∧
    (cfg.start_page = 1 → cfg.end_page = some 1 → ∀ n, fuel = n + 1 →
      ((loop cfg env fuel (initSt cfg)).1).fetched = [(1, cfg.base_url)]) := by
  refine ⟨?_, ?_, ?_⟩
  · apply loop_traceOK
    · simp [initSt]
    · exact traceOK_nil cfg
  · intro e he hne hle
    apply loop_endBound cfg env e he hne
    · simpa [initSt] using hle
    · intro pr hpr
      simp [initSt] at hpr
  · intro h1 h2 n hn
    subst hn
    exact loop_single cfg env h1 h2 n

/-- Witness for C1: the single-fetch and bound clauses at
`start_page = 1`, `end_page = 1` with a failing fetch. -/
theorem spec_c1_witness :
    ((loop cfgOne envNone 1 (initSt cfgOne)).1).fetched = [(1, cfgOne.base_url)] ∧
    (1, cfgOne.base_url).1 ≤ 1 := by
  have h3 := (spec_c1 cfgOne envNone 1).2.2 rfl rfl 0 rfl
  refine ⟨h3, ?_⟩
  exact (spec_c1 cfgOne envNone 1).2.1 1 rfl (by decide) (by decide) (1, cfgOne.base_url)
    (by rw [h3]; exact List.mem_singleton.mpr rfl)

/-- Claim C2: a fetched, non-falsy page whose extraction yields zero
candidates terminates the run right there (the loop exits after exactly
that one further fetch, whatever `end_page` is), with the accumulator
unchanged; and termination is decided by the extracted count, not the
accepted count: a page whose candidates are all rejected by the
validator continues to the next page. -/
theorem spec_c2 (cfg : Config) (env : Env) (s : St) (n : Nat) :
    (∀ html, (fetchPage cfg env (urlFor cfg s.page) s.sess).2 = some html →
        ¬ (html = ("")) →
        parse_page cfg.base_url (env.soup html) = Except.ok [] →
        (loop cfg env (n + 1) s).2 = RunExit.terminated ∧
        ((loop cfg env (n + 1) s).1).acc = s.acc ∧
        ((loop cfg env (n + 1) s).1).fetched =
          s.fetched ++ [(s.page, urlFor cfg s.page)]) ∧
    (∀ html bikes, (fetchPage cfg env (urlFor cfg s.page) s.sess).2 = some html →
        ¬ (html = ("")) →
        parse_page cfg.base_url (env.soup html) = Except.ok bikes →
        bikes ≠ [] →
        (∀ b ∈ bikes, is_valid cfg.schema env b = Except.ok false) →
        endBreak cfg.end_page (s.page + 1) = false →
        (step cfg env s).isNext = true ∧ ((step cfg env s).state).acc = s.acc) := by
  constructor
  · intro html hf hh hp
    have hstep := step_parseOkStop cfg env s html hf hh hp
    have hl : loop cfg env (n + 1) s =
        ({ s with sess := (fetchPage cfg env (urlFor cfg s.page) s.sess).1,
                  fetched := s.fetched ++ [(s.page, urlFor cfg s.page)],
                  parsed := s.parsed ++ [html],
                  page := s.page + 1 }, RunExit.terminated) := by
      simp [loop, hstep]
    exact ⟨by rw [hl], by rw [hl], by rw [hl]⟩
  · intro html bikes hf hh hp hbne hall hend
    have hstep := step_rejectedNext cfg env s html bikes hf hh hp hbne hall hend
    exact ⟨by rw [hstep]; rfl, by rw [hstep]; rfl⟩

/-- Witness for C2: an empty page under no `end_page` ends the run with
nothing accumulated, and a page of two universally rejected records
continues the run. -/
theorem spec_c2_witness :
    ((loop cfgNoEnd envX 1 (initSt cfgNoEnd)).2 = RunExit.terminated ∧
      ((loop cfgNoEnd envX 1 (initSt cfgNoEnd)).1).acc = (initSt cfgNoEnd).acc) ∧
    ((step cfgVal envValPage (initSt cfgVal)).isNext = true ∧
      ((step cfgVal envValPage (initSt cfgVal)).state).acc = (initSt cfgVal).acc) := by
  constructor
  · have h := (spec_c2 cfgNoEnd envX (initSt cfgNoEnd) 0).1 ("x") rfl (by decide) rfl
    exact ⟨h.1, h.2.1⟩
  · exact (spec_c2 cfgVal envValPage (initSt cfgVal) 0).2 ("x") [bikeA, bikeA] rfl
      (by decide) rfl (List.cons_ne_nil _ _) (fun b _ => rfl) rfl

/-- Claim C4: when `fetch_page` returns `None` for the current page, the
run terminates at once: the loop performs exactly that one further fetch
attempt (no retry), extracts nothing further, raises nothing, and
`crawl` returns the records accepted on previously processed pages in
accumulation order. -/
theorem spec_c4 (cfg : Config) (env : Env) (s : St) (n : Nat)
    (hf : (fetchPage cfg env (urlFor cfg s.page) s.sess).2 = none) :
    (loop cfg env (n + 1) s).2 = RunExit.terminated ∧
    ((loop cfg env (n + 1) s).1).acc = s.acc ∧
    ((loop cfg env (n + 1) s).1).page = s.page ∧
    ((loop cfg env (n + 1) s).1).parsed = s.parsed ∧
    ((loop cfg env (n + 1) s).1).fetched = s.fetched ++ [(s.page, urlFor cfg s.page)] ∧
    (crawlFrom cfg env (n + 1) s).1 = CrawlResult.finished s.acc := by
  have hstep := step_fetchNone cfg env s hf
  have hl : loop cfg env (n + 1) s =
      ({ s with sess := (fetchPage cfg env (urlFor cfg s.page) s.sess).1,
                fetched := s.fetched ++ [(s.page, urlFor cfg s.page)] },
       RunExit.terminated) := by
    simp [loop, hstep]
  exact ⟨by rw [hl], by rw [hl], by rw [hl], by rw [hl], by rw [hl],
    by simp [crawlFrom, hl]⟩

/-- Witness for C4: a run whose first fetch fails returns the (empty)
accumulator. -/
theorem spec_c4_witness :
    (loop cfgNoEnd envNone 1 (initSt cfgNoEnd)).2 = RunExit.terminated ∧
    ((loop cfgNoEnd envNone 1 (initSt cfgNoEnd)).1).acc = (initSt cfgNoEnd).acc ∧
    (crawlFrom cfgNoEnd envNone 1 (initSt cfgNoEnd)).1 =
      CrawlResult.finished (initSt cfgNoEnd).acc := by
  have h := spec_c4 cfgNoEnd envNone (initSt cfgNoEnd) 0 rfl
  exact ⟨h.1, h.2.1, h.2.2.2.2.2⟩

/-- Counterexample for C5: only `ValidationError` is caught by
`is_valid` (line 168); when the external validation check raises an
exception of another class — as `jsonschema.validate` does with a
`SchemaError` for the invalid supplied schema `schBad` — `is_valid`
raises past the validation boundary, so "never raises ... for every
record and every supplied schema" fails. -/
theorem spec_c5_counterexample :
    jFalsy schBad = false ∧
    is_valid (some schBad) envRaise bikeA = Except.error PyErr.schemaError :=
  ⟨rfl, rfl⟩

/-- Claim C5 (amended): with no schema (or a falsy empty one) every
record is accepted; with a truthy schema a record the check reports
invalid is rejected without raising, an accepted one passes, and a page
of rejected records leaves the accumulator unchanged while the run
continues — but only `ValidationError` is caught: an exception of any
other class from the validation check (e.g. an invalid schema)
propagates. -/
theorem spec_c5 :
    (∀ (env : Env) (b : Bike), is_valid none env b = Except.ok true) ∧
    (∀ (env : Env) (sch : JValue) (b : Bike), jFalsy sch = true →
        is_valid (some sch) env b = Except.ok true) ∧
    (∀ (env : Env) (sch : JValue) (b : Bike), jFalsy sch = false →
        env.validate sch b = VOut.invalid →
        is_valid (some sch) env b = Except.ok false) ∧
    (∀ (env : Env) (sch : JValue) (b : Bike), jFalsy sch = false →
        env.validate sch b = VOut.valid →
        is_valid (some sch) env b = Except.ok true) ∧
    (∀ (cfg : Config) (env : Env) (s : St) (html : String) (bikes : List Bike),
        (fetchPage cfg env (urlFor cfg s.page) s.sess).2 = some html →
        ¬ (html = ("")) →
        parse_page cfg.base_url (env.soup html) = Except.ok bikes →
        bikes ≠ [] →
        (∀ b ∈ bikes, is_valid cfg.schema env b = Except.ok false) →
        endBreak cfg.end_page (s.page + 1) = false →
        (step cfg env s).isNext = true ∧ ((step cfg env s).state).acc = s.acc) := by
  refine ⟨fun env b => rfl, ?_, ?_, ?_, ?_⟩
  · intro env sch b h
    simp [is_valid, h]
  · intro env sch b h1 h2
    simp [is_valid, h1, h2]
  · intro env sch b h1 h2
    simp [is_valid, h1, h2]
  · intro cfg env s html bikes hf hh hp hbne hall hend
    have hstep := step_rejectedNext cfg env s html bikes hf hh hp hbne hall hend
    exact ⟨by rw [hstep]; rfl, by rw [hstep]; rfl⟩

/-- Witness for C5: a rejection under a truthy schema, and a page of
rejected records that leaves the accumulator unchanged while the run
continues. -/
theorem spec_c5_witness :
    is_valid (some schReq) envReject bikeA = Except.ok false ∧
    ((step cfgVal envValPage (initSt cfgVal)).isNext = true ∧
      ((step cfgVal envValPage (initSt cfgVal)).state).acc = (initSt cfgVal).acc) := by
  constructor
  · exact spec_c5.2.2.1 envReject schReq bikeA rfl rfl
  · exact spec_c5.2.2.2.2 cfgVal envValPage (initSt cfgVal) ("x") [bikeA, bikeA] rfl
      (by decide) rfl (List.cons_ne_nil _ _) (fun b _ => rfl) rfl

/-- Claim C8: in a browser-backed run, whenever the loop has exited —
normal termination or a raised exception from extraction or validation
(fetch exceptions are swallowed into an absent result) — the `finally`
of lines 195-197 has run `close`, so all four session resources
(playwright driver, browser, context, page) are released. -/
theorem spec_c8 (cfg : Config) (env : Env) (fuel : Nat) (s : St)
    (hb : cfg.use_browser = true)
    (hex : ((crawlFrom cfg env fuel s).1).isFuelOut = false) :
    ((crawlFrom cfg env fuel s).2).sess = Session.closed := by
  cases hr : (loop cfg env fuel s).2 with
  | terminated => simp [crawlFrom, hr, hb, closeSession_eq]
  | raised e => simp [crawlFrom, hr, hb, closeSession_eq]
  | fuelOut =>
    exfalso
    have hcr : (crawlFrom cfg env fuel s).1 = CrawlResult.fuelOut := by
      simp [crawlFrom, hr]
    rw [hcr] at hex
    simp [CrawlResult.isFuelOut] at hex

/-- Witness for C8: a browser-backed run whose only fetch fails still
ends with the session fully closed. -/
theorem spec_c8_witness :
    ((crawlFrom cfgBrowser envNone 1 (initSt cfgBrowser)).2).sess = Session.closed :=
  spec_c8 cfgBrowser envNone 1 (initSt cfgBrowser) rfl rfl

theorem fetchPage_localNone (cfg : Config) (env : Env) (url : String) (sess : Session) :
    fetchPage cfg { env with fetch := fun u => if u = url then none else env.fetch u }
      url sess = ((fetchPage cfg env url sess).1, none) := by
  have hens : ensurePage
      { env with fetch := fun u => if u = url then none else env.fetch u } sess =
      ensurePage env sess := rfl
  simp only [fetchPage]
  by_cases hbw : cfg.use_browser
  · rw [if_pos hbw, if_pos hbw, hens]
    cases hr : (ensurePage env sess).2 with
    | true => simp [hr]
    | false => simp [hr]
  · rw [if_neg hbw, if_neg hbw]
    simp

/-- Claim C10: markup equal to the empty string is falsy, exactly like an
absent fetch (line 183): the run terminates at once without invoking the
extractor on that page, the accumulated records are returned, and the
step taken is literally the step taken in the environment whose fetch
returns absent for that URL. -/
theorem spec_c10 (cfg : Config) (env : Env) (s : St) (n : Nat)
    (hf : (fetchPage cfg env (urlFor cfg s.page) s.sess).2 = some ("")) :
    (loop cfg env (n + 1) s).2 = RunExit.terminated ∧
    ((loop cfg env (n + 1) s).1).acc = s.acc ∧
    ((loop cfg env (n + 1) s).1).parsed = s.parsed ∧
    ((loop cfg env (n + 1) s).1).page = s.page ∧
    (crawlFrom cfg env (n + 1) s).1 = CrawlResult.finished s.acc ∧
    step cfg env s = step cfg
      { env with fetch := fun u => if u = urlFor cfg s.page then none else env.fetch u }
      s := by
  have hstep := step_fetchEmptyStr cfg env s hf
  have hl : loop cfg env (n + 1) s =
      ({ s with sess := (fetchPage cfg env (urlFor cfg s.page) s.sess).1,
                fetched := s.fetched ++ [(s.page, urlFor cfg s.page)] },
       RunExit.terminated) := by
    simp [loop, hstep]
  have hfp2 := fetchPage_localNone cfg env (urlFor cfg s.page) s.sess
  have hf2 : (fetchPage cfg
      { env with fetch := fun u => if u = urlFor cfg s.page then none else env.fetch u }
      (urlFor cfg s.page) s.sess).2 = none := by
    rw [hfp2]
  have hstep2 := step_fetchNone cfg
    { env with fetch := fun u => if u = urlFor cfg s.page then none else env.fetch u }
    s hf2
  rw [hfp2] at hstep2
  exact ⟨by rw [hl], by rw [hl], by rw [hl], by rw [hl], by simp [crawlFrom, hl],
    hstep.trans hstep2.symm⟩

/-- Witness for C10: a run whose first fetch returns the empty string
terminates immediately, extracting nothing and returning the (empty)
accumulator. -/
theorem spec_c10_witness :
    (loop cfgNoEnd envEmptyStr 1 (initSt cfgNoEnd)).2 = RunExit.terminated ∧
    ((loop cfgNoEnd envEmptyStr 1 (initSt cfgNoEnd)).1).acc = (initSt cfgNoEnd).acc ∧
    ((loop cfgNoEnd envEmptyStr 1 (initSt cfgNoEnd)).1).parsed = (initSt cfgNoEnd).parsed ∧
    (crawlFrom cfgNoEnd envEmptyStr 1 (initSt cfgNoEnd)).1 =
      CrawlResult.finished (initSt cfgNoEnd).acc := by
  have h := spec_c10 cfgNoEnd envEmptyStr (initSt cfgNoEnd) 0 rfl
  exact ⟨h.1, h.2.1, h.2.2.1, h.2.2.2.2.1⟩
